import Mathlib

/-!
Shallow embedding of the Subtract operation node of the computational-graph
engine (src/ops/subtract.ts), together with the scoped-allocation discipline
of its numeric backend, and theorems checking the specification claims.

Numeric element data is modelled over the rationals. Buffers carry an
allocation id; the backend state tracks the set of live buffer ids so that
the scoped-release discipline of math.scope is observable.
-/

/-- A dense-array shape: the ordered list of dimension sizes. -/
abbrev Shape := List Nat

/-- util.sizeFromShape: the number of elements of an array of the given
shape (the product of the dimensions; the empty shape has size 1). -/
def sizeFromShape (shape : Shape) : Nat := shape.foldl (fun a b => a * b) 1

/-- Modelled from the spec: util.arraysEqual on two shapes is structural
equality of the dimension lists (util.ts is outside the embedded source). -/
def arraysEqual (a b : Shape) : Bool := a == b

/-- Modelled from the spec (section 4.4): util.isScalarShape, the
broadcasting classifier — a shape denotes a scalar exactly when it has
exactly one element, whatever its rank (util.ts is outside the embedded
source). -/
def isScalarShape (shape : Shape) : Bool := sizeFromShape shape == 1

/-- A dense numeric array: an allocation id, a shape and the element data. -/
structure NDArray where
  id : Nat
  shape : Shape
  data : List ℚ
deriving DecidableEq

/-- NDArray.size: the element count, computed from the shape. -/
def NDArray.size (a : NDArray) : Nat := sizeFromShape a.shape

/-- The numeric value held by a one-element array. -/
def scalarValue (a : NDArray) : ℚ := a.data.headI

/-- Allocation state of the numeric backend between calls: the next fresh
buffer id and the ids of the buffers currently live. -/
structure ArrState where
  nextId : Nat
  live : List Nat
deriving DecidableEq

/-- State of the backend inside one math.scope: the allocation state plus
the ids the scope tracks for cleanup and the ids marked keep. -/
structure MathScope where
  nextId : Nat
  live : List Nat
  tracked : List Nat
  kept : List Nat
deriving DecidableEq

/-- Modelled from the spec (section 5): entering a math.scope starts
tracking backend allocations, with nothing tracked or kept yet. -/
def scopeStart (st : ArrState) : MathScope := ⟨st.nextId, st.live, [], []⟩

/-- Modelled from the spec (section 5): leaving a math.scope releases every
buffer the scope tracked that was not marked keep. -/
def scopeEnd (ms : MathScope) : ArrState :=
  ⟨ms.nextId, ms.live.filter (fun i => !(ms.tracked.contains i) || ms.kept.contains i)⟩

/-- A backend buffer allocated inside a scope and tracked by it. -/
def trackAlloc (ms : MathScope) (shape : Shape) (data : List ℚ) : NDArray × MathScope :=
  (⟨ms.nextId, shape, data⟩,
   ⟨ms.nextId + 1, ms.nextId :: ms.live, ms.nextId :: ms.tracked, ms.kept⟩)

/-- math.scope keep: exempt a buffer from the cleanup of the scope. -/
def keepArr (ms : MathScope) (a : NDArray) : MathScope :=
  { ms with kept := a.id :: ms.kept }

/-- Modelled from the spec: Scalar.new allocates a buffer directly, outside
the tracking of the enclosing math.scope (section 3: a cached private
scalar must survive across backward invocations until the node releases
it, so it cannot be subject to the scope cleanup). -/
def Scalar.new (ms : MathScope) (v : ℚ) : NDArray × MathScope :=
  (⟨ms.nextId, [], [v]⟩, { ms with nextId := ms.nextId + 1, live := ms.nextId :: ms.live })

/-- Modelled from the spec: math.sub, the elementwise subtraction kernel. -/
def NDArrayMath.sub (ms : MathScope) (a b : NDArray) : NDArray × MathScope :=
  trackAlloc ms a.shape (List.zipWith (fun x y => x - y) a.data b.data)

/-- Modelled from the spec: math.scalarMinusArray broadcasts the scalar c
over the array a. -/
def NDArrayMath.scalarMinusArray (ms : MathScope) (c a : NDArray) : NDArray × MathScope :=
  trackAlloc ms a.shape (a.data.map (fun x => scalarValue c - x))

/-- Modelled from the spec: math.arrayMinusScalar broadcasts the scalar c
over the array a. -/
def NDArrayMath.arrayMinusScalar (ms : MathScope) (a c : NDArray) : NDArray × MathScope :=
  trackAlloc ms a.shape (a.data.map (fun x => x - scalarValue c))

/-- Modelled from the spec: math.neg, elementwise negation. -/
def NDArrayMath.neg (ms : MathScope) (a : NDArray) : NDArray × MathScope :=
  trackAlloc ms a.shape (a.data.map (fun x => -x))

/-- Modelled from the spec: math.sum, reduction of all elements to a scalar. -/
def NDArrayMath.sum (ms : MathScope) (a : NDArray) : NDArray × MathScope :=
  trackAlloc ms [] [a.data.sum]

/-- Modelled from the spec: math.divide on scalar operands. -/
def NDArrayMath.divide (ms : MathScope) (a b : NDArray) : NDArray × MathScope :=
  trackAlloc ms [] [scalarValue a / scalarValue b]

/-- A tensor handle: an identity plus a shape; owns no data. -/
structure Tensor where
  id : Nat
  shape : Shape
deriving DecidableEq

/-- Modelled from the spec: TensorArrayMap, a value map from tensor handle
identity to array value (tensor_array_map.ts is outside the embedded
source). -/
abbrev TensorArrayMap := Nat → Option NDArray

/-- TensorArrayMap.get: absence of the entry is the failure case
(MissingValueError in forward, MissingGradientError in backward). -/
def TensorArrayMap.get (m : TensorArrayMap) (t : Tensor) : Option NDArray := m t.id

/-- TensorArrayMap.set: write the value for the handle. -/
def TensorArrayMap.set (m : TensorArrayMap) (t : Tensor) (a : NDArray) : TensorArrayMap :=
  fun i => if i = t.id then some a else m i

/-- The Subtract operation node: the input handles t1 and t2, the output
handle, and the lazily created cached divisor scalar (null sentinel is
none). -/
structure Subtract where
  t1 : Tensor
  t2 : Tensor
  outTensor : Tensor
  dySizeScalar : Option NDArray
deriving DecidableEq

/-- The constructor of Subtract: util.assert that one of t1 or t2 is a
scalar, or that t1 and t2 have the same shape; a failed assertion is a
failed construction (none). -/
def Subtract.construct (t1 t2 outTensor : Tensor) : Option Subtract :=
  if sizeFromShape t1.shape == 1 || sizeFromShape t2.shape == 1 ||
      arraysEqual t1.shape t2.shape then
    some ⟨t1, t2, outTensor, none⟩
  else none

/-- Subtract.feedForward: read both operand arrays (a missing operand fails
the call before any write), dispatch on the scalar classifier over the
array shapes, and write the kept result under the output handle; the scope
releases every other buffer it tracked. -/
def Subtract.feedForward (node : Subtract) (inferenceArrays : TensorArrayMap)
    (st : ArrState) : Option (TensorArrayMap × ArrState) :=
  match TensorArrayMap.get inferenceArrays node.t1,
        TensorArrayMap.get inferenceArrays node.t2 with
  | some t1v, some t2v =>
      let ms := scopeStart st
      let r :=
        if isScalarShape t1v.shape then NDArrayMath.scalarMinusArray ms t1v t2v
        else if isScalarShape t2v.shape then NDArrayMath.arrayMinusScalar ms t1v t2v
        else NDArrayMath.sub ms t1v t2v
      some (TensorArrayMap.set inferenceArrays node.outTensor r.1,
            scopeEnd (keepArr r.2 r.1))
  | _, _ => none

/-- The t1 block of Subtract.backProp: the first conditional of the scope
body, writing the gradient of the left-hand operand when required. -/
def Subtract.backPropT1 (node : Subtract) (req : Nat → Bool) (dy : NDArray)
    (gradientArrays : TensorArrayMap) (ms : MathScope) :
    Subtract × TensorArrayMap × MathScope :=
  if req node.t1.id then
    if isScalarShape node.t1.shape then
      let s := NDArrayMath.sum ms dy
      let c :=
        match node.dySizeScalar with
        | none => Scalar.new s.2 ((dy.size : ℚ))
        | some c0 => (c0, s.2)
      let node1 : Subtract := { node with dySizeScalar := some c.1 }
      let g := NDArrayMath.divide c.2 s.1 c.1
      (node1, TensorArrayMap.set gradientArrays node.t1 g.1, keepArr g.2 g.1)
    else
      (node, TensorArrayMap.set gradientArrays node.t1 dy, keepArr ms dy)
  else (node, gradientArrays, ms)

/-- The t2 block of Subtract.backProp: the second conditional of the scope
body, writing the negated gradient of the right-hand operand when
required. -/
def Subtract.backPropT2 (node : Subtract) (req : Nat → Bool) (dy : NDArray)
    (gradientArrays : TensorArrayMap) (ms : MathScope) :
    Subtract × TensorArrayMap × MathScope :=
  if req node.t2.id then
    if isScalarShape node.t2.shape then
      let s := NDArrayMath.sum ms dy
      let n := NDArrayMath.neg s.2 s.1
      let c :=
        match node.dySizeScalar with
        | none => Scalar.new n.2 ((dy.size : ℚ))
        | some c0 => (c0, n.2)
      let node1 : Subtract := { node with dySizeScalar := some c.1 }
      let g := NDArrayMath.divide c.2 n.1 c.1
      (node1, TensorArrayMap.set gradientArrays node.t2 g.1, keepArr g.2 g.1)
    else
      let g := NDArrayMath.neg ms dy
      (node, TensorArrayMap.set gradientArrays node.t2 g.1, keepArr g.2 g.1)
  else (node, gradientArrays, ms)

/-- Subtract.backProp: read dy under the output handle (a missing gradient
fails the call before any write), then run the two gradient blocks inside
one scope; graph_util.shouldBackProp is the capability query req of the
Graph Driver, modelled as a predicate on tensor identities. -/
def Subtract.backProp (node : Subtract) (req : Nat → Bool)
    (inferenceArrays gradientArrays : TensorArrayMap) (st : ArrState) :
    Option (Subtract × TensorArrayMap × ArrState) :=
  match TensorArrayMap.get gradientArrays node.outTensor with
  | none => none
  | some dy =>
      let r1 := node.backPropT1 req dy gradientArrays (scopeStart st)
      let r2 := r1.1.backPropT2 req dy r1.2.1 r1.2.2
      some (r2.1, r2.2.1, scopeEnd r2.2.2)

/-- Modelled from the spec: NDArray.dispose releases a live buffer; the
resource discipline releases each buffer exactly once, so disposing an id
that is no longer live is a resource fault (none). -/
def disposeArr (st : ArrState) (i : Nat) : Option ArrState :=
  if i ∈ st.live then some ⟨st.nextId, st.live.filter (fun j => j != i)⟩
  else none

/-- Subtract.dispose: if the cached divisor scalar is non-null, dispose it.
The field is not cleared afterwards. -/
def Subtract.dispose (node : Subtract) (st : ArrState) : Option (Subtract × ArrState) :=
  match node.dySizeScalar with
  | none => some (node, st)
  | some s => Option.map (fun st2 => (node, st2)) (disposeArr st s.id)

/-! ### Helper lemmas about the value map and the scope -/

theorem TensorArrayMap.get_set_same (m : TensorArrayMap) (t : Tensor) (a : NDArray) :
    TensorArrayMap.set m t a t.id = some a := by
  simp [TensorArrayMap.set]

theorem TensorArrayMap.get_set_other (m : TensorArrayMap) (t : Tensor) (a : NDArray)
    (i : Nat) (h : i ≠ t.id) : TensorArrayMap.set m t a i = m i := by
  simp [TensorArrayMap.set, h]

/-- The id that survives the end of a scope: it is live and either
untracked or kept. -/
def survives (ms : MathScope) (i : Nat) : Prop :=
  i ∈ ms.live ∧ (i ∉ ms.tracked ∨ i ∈ ms.kept)

theorem mem_scopeEnd_live (ms : MathScope) (i : Nat) :
    i ∈ (scopeEnd ms).live ↔ survives ms i := by
  simp [scopeEnd, survives, List.mem_filter]

theorem survives_scopeStart (st : ArrState) (i : Nat) :
    survives (scopeStart st) i ↔ i ∈ st.live := by
  simp [survives, scopeStart]

/-- The result array of feedForward as a function of the operand arrays and
the fresh id. -/
def ffOut (a b : NDArray) (n : Nat) : NDArray :=
  if isScalarShape a.shape then ⟨n, b.shape, b.data.map (fun x => scalarValue a - x)⟩
  else if isScalarShape b.shape then ⟨n, a.shape, a.data.map (fun x => x - scalarValue b)⟩
  else ⟨n, a.shape, List.zipWith (fun x y => x - y) a.data b.data⟩

theorem feedForward_some (node : Subtract) (m : TensorArrayMap) (st : ArrState)
    (a b : NDArray)
    (h1 : TensorArrayMap.get m node.t1 = some a)
    (h2 : TensorArrayMap.get m node.t2 = some b) :
    node.feedForward m st =
      some (TensorArrayMap.set m node.outTensor (ffOut a b st.nextId),
            ⟨st.nextId + 1, st.nextId :: st.live⟩) := by
  have hfilter : ∀ (L : List Nat) (n : Nat),
      L.filter (fun i => !([n].contains i) || [n].contains i) = L := by
    intro L n
    apply List.filter_eq_self.mpr
    intro j _
    by_cases hj : [n].contains j <;> simp [hj]
  unfold Subtract.feedForward
  rw [h1, h2]
  by_cases hs1 : isScalarShape a.shape
  · simp only [hs1, if_true, NDArrayMath.scalarMinusArray, trackAlloc, keepArr, scopeEnd,
      scopeStart, ffOut]
    simp [hfilter]
  · by_cases hs2 : isScalarShape b.shape
    · simp only [hs1, hs2, if_false, if_true, NDArrayMath.arrayMinusScalar, trackAlloc,
        keepArr, scopeEnd, scopeStart, ffOut, Bool.false_eq_true]
      simp [hfilter, hs1]
    · simp only [hs1, hs2, if_false, NDArrayMath.sub, trackAlloc, keepArr, scopeEnd,
        scopeStart, ffOut, Bool.false_eq_true]
      simp [hfilter, hs1, hs2]

theorem Subtract.eta_cached : ∀ (node : Subtract) (c0 : NDArray),
    node.dySizeScalar = some c0 → { node with dySizeScalar := some c0 } = node
  | ⟨_, _, _, _⟩, _, rfl => rfl

theorem backPropT1_skip (node : Subtract) (req : Nat → Bool) (dy : NDArray)
    (g : TensorArrayMap) (ms : MathScope) (h : req node.t1.id = false) :
    node.backPropT1 req dy g ms = (node, g, ms) := by
  simp [Subtract.backPropT1, h]

theorem backPropT1_keep (node : Subtract) (req : Nat → Bool) (dy : NDArray)
    (g : TensorArrayMap) (ms : MathScope)
    (h : req node.t1.id = true) (hs : isScalarShape node.t1.shape = false) :
    node.backPropT1 req dy g ms =
      (node, TensorArrayMap.set g node.t1 dy, keepArr ms dy) := by
  simp [Subtract.backPropT1, h, hs]

theorem backPropT1_scalar_new (node : Subtract) (req : Nat → Bool) (dy : NDArray)
    (g : TensorArrayMap) (ms : MathScope)
    (h : req node.t1.id = true) (hs : isScalarShape node.t1.shape = true)
    (hc : node.dySizeScalar = none) :
    node.backPropT1 req dy g ms =
      ({ node with dySizeScalar := some ⟨ms.nextId + 1, [], [(dy.size : ℚ)]⟩ },
       TensorArrayMap.set g node.t1 ⟨ms.nextId + 2, [], [dy.data.sum / (dy.size : ℚ)]⟩,
       ⟨ms.nextId + 3, (ms.nextId + 2) :: (ms.nextId + 1) :: ms.nextId :: ms.live,
        (ms.nextId + 2) :: ms.nextId :: ms.tracked, (ms.nextId + 2) :: ms.kept⟩) := by
  simp [Subtract.backPropT1, h, hs, hc, NDArrayMath.sum, NDArrayMath.divide, Scalar.new,
    trackAlloc, keepArr, scalarValue]

theorem backPropT1_scalar_cached (node : Subtract) (req : Nat → Bool) (dy c0 : NDArray)
    (g : TensorArrayMap) (ms : MathScope)
    (h : req node.t1.id = true) (hs : isScalarShape node.t1.shape = true)
    (hc : node.dySizeScalar = some c0) :
    node.backPropT1 req dy g ms =
      (node,
       TensorArrayMap.set g node.t1 ⟨ms.nextId + 1, [], [dy.data.sum / scalarValue c0]⟩,
       ⟨ms.nextId + 2, (ms.nextId + 1) :: ms.nextId :: ms.live,
        (ms.nextId + 1) :: ms.nextId :: ms.tracked, (ms.nextId + 1) :: ms.kept⟩) := by
  simp [Subtract.backPropT1, h, hs, hc, NDArrayMath.sum, NDArrayMath.divide,
    trackAlloc, keepArr, scalarValue, Subtract.eta_cached node c0 hc]

theorem backPropT2_skip (node : Subtract) (req : Nat → Bool) (dy : NDArray)
    (g : TensorArrayMap) (ms : MathScope) (h : req node.t2.id = false) :
    node.backPropT2 req dy g ms = (node, g, ms) := by
  simp [Subtract.backPropT2, h]

theorem backPropT2_neg (node : Subtract) (req : Nat → Bool) (dy : NDArray)
    (g : TensorArrayMap) (ms : MathScope)
    (h : req node.t2.id = true) (hs : isScalarShape node.t2.shape = false) :
    node.backPropT2 req dy g ms =
      (node,
       TensorArrayMap.set g node.t2 ⟨ms.nextId, dy.shape, dy.data.map (fun x => -x)⟩,
       ⟨ms.nextId + 1, ms.nextId :: ms.live, ms.nextId :: ms.tracked,
        ms.nextId :: ms.kept⟩) := by
  simp [Subtract.backPropT2, h, hs, NDArrayMath.neg, trackAlloc, keepArr]

theorem backPropT2_scalar_new (node : Subtract) (req : Nat → Bool) (dy : NDArray)
    (g : TensorArrayMap) (ms : MathScope)
    (h : req node.t2.id = true) (hs : isScalarShape node.t2.shape = true)
    (hc : node.dySizeScalar = none) :
    node.backPropT2 req dy g ms =
      ({ node with dySizeScalar := some ⟨ms.nextId + 2, [], [(dy.size : ℚ)]⟩ },
       TensorArrayMap.set g node.t2
         ⟨ms.nextId + 3, [], [(-dy.data.sum) / (dy.size : ℚ)]⟩,
       ⟨ms.nextId + 4,
        (ms.nextId + 3) :: (ms.nextId + 2) :: (ms.nextId + 1) :: ms.nextId :: ms.live,
        (ms.nextId + 3) :: (ms.nextId + 1) :: ms.nextId :: ms.tracked,
        (ms.nextId + 3) :: ms.kept⟩) := by
  simp [Subtract.backPropT2, h, hs, hc, NDArrayMath.sum, NDArrayMath.neg,
    NDArrayMath.divide, Scalar.new, trackAlloc, keepArr, scalarValue]

theorem backPropT2_scalar_cached (node : Subtract) (req : Nat → Bool) (dy c0 : NDArray)
    (g : TensorArrayMap) (ms : MathScope)
    (h : req node.t2.id = true) (hs : isScalarShape node.t2.shape = true)
    (hc : node.dySizeScalar = some c0) :
    node.backPropT2 req dy g ms =
      (node,
       TensorArrayMap.set g node.t2
         ⟨ms.nextId + 2, [], [(-dy.data.sum) / scalarValue c0]⟩,
       ⟨ms.nextId + 3, (ms.nextId + 2) :: (ms.nextId + 1) :: ms.nextId :: ms.live,
        (ms.nextId + 2) :: (ms.nextId + 1) :: ms.nextId :: ms.tracked,
        (ms.nextId + 2) :: ms.kept⟩) := by
  simp [Subtract.backPropT2, h, hs, hc, NDArrayMath.sum, NDArrayMath.neg,
    NDArrayMath.divide, trackAlloc, keepArr, scalarValue,
    Subtract.eta_cached node c0 hc]

/-! ### Claim theorems -/

/-- C4: constructing a Subtract node fails with a shape error if and only
if neither operand shape has exactly one element and the two shapes are
not equal. -/
theorem subtract_construct_fails_iff_shape_mismatch (t1 t2 o : Tensor) :
    Subtract.construct t1 t2 o = none ↔
      sizeFromShape t1.shape ≠ 1 ∧ sizeFromShape t2.shape ≠ 1 ∧
        t1.shape ≠ t2.shape := by
  have hstep : Subtract.construct t1 t2 o = none ↔
      ¬((sizeFromShape t1.shape == 1 || sizeFromShape t2.shape == 1 ||
        arraysEqual t1.shape t2.shape) = true) := by
    unfold Subtract.construct
    split <;> simp_all
  rw [hstep]
  simp [arraysEqual, not_or, and_assoc]

/-- C5: the scalar classifier used by the constructor (size from shape
equals one) agrees, on every shape, with the classifier used by the
forward and backward dispatch (isScalarShape). -/
theorem scalar_classifier_agrees (s : Shape) :
    ((sizeFromShape s == 1) = isScalarShape s) ∧
      (isScalarShape s = true ↔ sizeFromShape s = 1) := by
  simp [isScalarShape]

/-- C1: for operand arrays present in the forward value map, feedForward
writes under the output handle the elementwise difference when the shapes
agree, and the scalar broadcast when exactly one operand is
scalar-shaped. -/
theorem subtract_feedForward_writes_difference
    (node : Subtract) (m : TensorArrayMap) (st : ArrState) (a b : NDArray)
    (h1 : TensorArrayMap.get m node.t1 = some a)
    (h2 : TensorArrayMap.get m node.t2 = some b)
    (ha : a.data.length = a.size) (hb : b.data.length = b.size) :
    ∃ m2 st2, node.feedForward m st = some (m2, st2) ∧
      ∃ r, m2 node.outTensor.id = some r ∧
        (a.shape = b.shape →
          r.data = List.zipWith (fun x y => x - y) a.data b.data) ∧
        (isScalarShape a.shape = true → isScalarShape b.shape = false →
          r.data = b.data.map (fun x => scalarValue a - x)) ∧
        (isScalarShape a.shape = false → isScalarShape b.shape = true →
          r.data = a.data.map (fun x => x - scalarValue b)) := by
  refine ⟨_, _, feedForward_some node m st a b h1 h2,
    ffOut a b st.nextId, TensorArrayMap.get_set_same _ _ _, ?_, ?_, ?_⟩
  · intro hsh
    unfold ffOut
    by_cases hs1 : isScalarShape a.shape = true
    · have hla : a.data.length = 1 := by
        rw [ha]
        unfold NDArray.size
        simpa [isScalarShape] using hs1
      have hlb : b.data.length = 1 := by
        rw [hb]
        unfold NDArray.size
        rw [← hsh]
        simpa [isScalarShape] using hs1
      obtain ⟨x, hx⟩ := List.length_eq_one.mp hla
      obtain ⟨y, hy⟩ := List.length_eq_one.mp hlb
      simp [hs1, hx, hy, scalarValue]
    · have hs2 : ¬(isScalarShape b.shape = true) := by rw [← hsh]; exact hs1
      simp [hs1, hs2]
  · intro hs1 hs2
    unfold ffOut
    simp [hs1, hs2]
  · intro hs1 hs2
    unfold ffOut
    simp [hs1, hs2]

def aW1 : NDArray := ⟨0, [2], [3, 5]⟩

def bW1 : NDArray := ⟨1, [2], [1, 2]⟩

def nodeW1 : Subtract := ⟨⟨1, [2]⟩, ⟨2, [2]⟩, ⟨3, [2]⟩, none⟩

def mW1 : TensorArrayMap :=
  fun i => if i = 1 then some aW1 else if i = 2 then some bW1 else none

def stW1 : ArrState := ⟨2, [0, 1]⟩

/-- Witness for C1 at A = [3, 5], B = [1, 2] over shape [2]. -/
theorem subtract_feedForward_writes_difference_witness :
    TensorArrayMap.get mW1 nodeW1.t1 = some aW1 ∧
    TensorArrayMap.get mW1 nodeW1.t2 = some bW1 ∧
    aW1.data.length = aW1.size ∧ bW1.data.length = bW1.size ∧
    (∃ m2 st2, nodeW1.feedForward mW1 stW1 = some (m2, st2) ∧
      ∃ r, m2 nodeW1.outTensor.id = some r ∧
        (aW1.shape = bW1.shape →
          r.data = List.zipWith (fun x y => x - y) aW1.data bW1.data) ∧
        (isScalarShape aW1.shape = true → isScalarShape bW1.shape = false →
          r.data = bW1.data.map (fun x => scalarValue aW1 - x)) ∧
        (isScalarShape aW1.shape = false → isScalarShape bW1.shape = true →
          r.data = aW1.data.map (fun x => x - scalarValue bW1))) :=
  ⟨rfl, rfl, rfl, rfl,
    subtract_feedForward_writes_difference nodeW1 mW1 stW1 aW1 bW1 rfl rfl rfl rfl⟩

theorem backPropT1_map_other (node : Subtract) (req : Nat → Bool) (dy : NDArray)
    (g : TensorArrayMap) (ms : MathScope) (i : Nat) (h : i ≠ node.t1.id) :
    (node.backPropT1 req dy g ms).2.1 i = g i := by
  unfold Subtract.backPropT1
  split
  · split
    · simp [TensorArrayMap.set, h]
    · simp [TensorArrayMap.set, h]
  · rfl

theorem backPropT2_map_other (node : Subtract) (req : Nat → Bool) (dy : NDArray)
    (g : TensorArrayMap) (ms : MathScope) (i : Nat) (h : i ≠ node.t2.id) :
    (node.backPropT2 req dy g ms).2.1 i = g i := by
  unfold Subtract.backPropT2
  split
  · split
    · simp [TensorArrayMap.set, h]
    · simp [TensorArrayMap.set, h]
  · rfl

theorem backPropT1_map_skip (node : Subtract) (req : Nat → Bool) (dy : NDArray)
    (g : TensorArrayMap) (ms : MathScope) (h : req node.t1.id = false) :
    (node.backPropT1 req dy g ms).2.1 = g := by
  rw [backPropT1_skip node req dy g ms h]

theorem backPropT2_map_skip (node : Subtract) (req : Nat → Bool) (dy : NDArray)
    (g : TensorArrayMap) (ms : MathScope) (h : req node.t2.id = false) :
    (node.backPropT2 req dy g ms).2.1 = g := by
  rw [backPropT2_skip node req dy g ms h]

theorem backPropT1_tensors (node : Subtract) (req : Nat → Bool) (dy : NDArray)
    (g : TensorArrayMap) (ms : MathScope) :
    (node.backPropT1 req dy g ms).1.t1 = node.t1 ∧
      (node.backPropT1 req dy g ms).1.t2 = node.t2 := by
  unfold Subtract.backPropT1
  split
  · split
    · exact ⟨rfl, rfl⟩
    · exact ⟨rfl, rfl⟩
  · exact ⟨rfl, rfl⟩

theorem backPropT1_cache_some (node : Subtract) (req : Nat → Bool) (dy c0 : NDArray)
    (g : TensorArrayMap) (ms : MathScope) (hc : node.dySizeScalar = some c0) :
    (node.backPropT1 req dy g ms).1.dySizeScalar = some c0 := by
  unfold Subtract.backPropT1
  split
  · split
    · simp [hc]
    · exact hc
  · exact hc

theorem backPropT2_cache_some (node : Subtract) (req : Nat → Bool) (dy c0 : NDArray)
    (g : TensorArrayMap) (ms : MathScope) (hc : node.dySizeScalar = some c0) :
    (node.backPropT2 req dy g ms).1.dySizeScalar = some c0 := by
  unfold Subtract.backPropT2
  split
  · split
    · simp [hc]
    · exact hc
  · exact hc

theorem backPropT1_cache_none_inv (node : Subtract) (req : Nat → Bool) (dy : NDArray)
    (g : TensorArrayMap) (ms : MathScope)
    (h : (node.backPropT1 req dy g ms).1.dySizeScalar = none) :
    node.dySizeScalar = none := by
  by_cases hc : node.dySizeScalar = none
  · exact hc
  · obtain ⟨c0, hc0⟩ := Option.ne_none_iff_exists'.mp hc
    rw [backPropT1_cache_some node req dy c0 g ms hc0] at h
    exact absurd h (by simp)

theorem backPropT1_cache_value (node : Subtract) (req : Nat → Bool) (dy : NDArray)
    (g : TensorArrayMap) (ms : MathScope)
    (hsz : ∀ s, node.dySizeScalar = some s → scalarValue s = (dy.size : ℚ)) :
    ∀ s, (node.backPropT1 req dy g ms).1.dySizeScalar = some s →
      scalarValue s = (dy.size : ℚ) := by
  intro s hs
  by_cases hc : node.dySizeScalar = none
  · by_cases hr : req node.t1.id = true
    · by_cases hsc : isScalarShape node.t1.shape = true
      · rw [backPropT1_scalar_new node req dy g ms hr hsc hc] at hs
        simp only [Option.some.injEq] at hs
        rw [← hs]
        simp [scalarValue]
      · rw [backPropT1_keep node req dy g ms hr (by simpa using hsc)] at hs
        simp only at hs
        rw [hc] at hs
        exact absurd hs (by simp)
    · rw [backPropT1_skip node req dy g ms (by simpa using hr)] at hs
      simp only at hs
      rw [hc] at hs
      exact absurd hs (by simp)
  · obtain ⟨c0, hc0⟩ := Option.ne_none_iff_exists'.mp hc
    rw [backPropT1_cache_some node req dy c0 g ms hc0] at hs
    simp only [Option.some.injEq] at hs
    exact hs ▸ hsz c0 hc0

theorem backPropT1_entry_keep (node : Subtract) (req : Nat → Bool) (dy : NDArray)
    (g : TensorArrayMap) (ms : MathScope)
    (hr : req node.t1.id = true) (hs : isScalarShape node.t1.shape = false) :
    (node.backPropT1 req dy g ms).2.1 node.t1.id = some dy := by
  rw [backPropT1_keep node req dy g ms hr hs]
  exact TensorArrayMap.get_set_same g node.t1 dy

theorem backPropT1_entry_scalar (node : Subtract) (req : Nat → Bool) (dy : NDArray)
    (g : TensorArrayMap) (ms : MathScope)
    (hr : req node.t1.id = true) (hs : isScalarShape node.t1.shape = true)
    (hsz : ∀ s, node.dySizeScalar = some s → scalarValue s = (dy.size : ℚ)) :
    ∃ a, (node.backPropT1 req dy g ms).2.1 node.t1.id = some a ∧
      a.data = [dy.data.sum / (dy.size : ℚ)] := by
  cases hc : node.dySizeScalar with
  | none =>
      rw [backPropT1_scalar_new node req dy g ms hr hs hc]
      exact ⟨_, TensorArrayMap.get_set_same _ _ _, rfl⟩
  | some c0 =>
      rw [backPropT1_scalar_cached node req dy c0 g ms hr hs hc]
      refine ⟨_, TensorArrayMap.get_set_same _ _ _, ?_⟩
      rw [hsz c0 hc]

theorem backPropT2_entry_neg (node : Subtract) (req : Nat → Bool) (dy : NDArray)
    (g : TensorArrayMap) (ms : MathScope)
    (hr : req node.t2.id = true) (hs : isScalarShape node.t2.shape = false) :
    ∃ a, (node.backPropT2 req dy g ms).2.1 node.t2.id = some a ∧
      a.shape = dy.shape ∧ a.data = dy.data.map (fun x => -x) := by
  rw [backPropT2_neg node req dy g ms hr hs]
  exact ⟨_, TensorArrayMap.get_set_same _ _ _, rfl, rfl⟩

theorem backPropT2_entry_scalar (node : Subtract) (req : Nat → Bool) (dy : NDArray)
    (g : TensorArrayMap) (ms : MathScope)
    (hr : req node.t2.id = true) (hs : isScalarShape node.t2.shape = true)
    (hsz : ∀ s, node.dySizeScalar = some s → scalarValue s = (dy.size : ℚ)) :
    ∃ a, (node.backPropT2 req dy g ms).2.1 node.t2.id = some a ∧
      a.data = [(-dy.data.sum) / (dy.size : ℚ)] := by
  cases hc : node.dySizeScalar with
  | none =>
      rw [backPropT2_scalar_new node req dy g ms hr hs hc]
      exact ⟨_, TensorArrayMap.get_set_same _ _ _, rfl⟩
  | some c0 =>
      rw [backPropT2_scalar_cached node req dy c0 g ms hr hs hc]
      refine ⟨_, TensorArrayMap.get_set_same _ _ _, ?_⟩
      rw [hsz c0 hc]

/-- C2: in the same-shape case with both inputs required, backProp writes
dy unchanged as the gradient of t1 and the elementwise negation of dy as
the gradient of t2. -/
theorem subtract_backProp_same_shape_gradients
    (node : Subtract) (req : Nat → Bool) (iArr gArr : TensorArrayMap)
    (st : ArrState) (dy : NDArray)
    (hdy : TensorArrayMap.get gArr node.outTensor = some dy)
    (hs1 : isScalarShape node.t1.shape = false)
    (hs2 : isScalarShape node.t2.shape = false)
    (hr1 : req node.t1.id = true) (hr2 : req node.t2.id = true)
    (hne : node.t1.id ≠ node.t2.id) :
    ∃ node2 g2 st2, node.backProp req iArr gArr st = some (node2, g2, st2) ∧
      g2 node.t1.id = some dy ∧
      ∃ gneg, g2 node.t2.id = some gneg ∧ gneg.shape = dy.shape ∧
        gneg.data = dy.data.map (fun x => -x) := by
  have ht := backPropT1_tensors node req dy gArr (scopeStart st)
  unfold Subtract.backProp
  rw [hdy]
  refine ⟨_, _, _, rfl, ?_, ?_⟩
  · rw [backPropT2_map_other _ req dy _ _ node.t1.id (by rw [ht.2]; exact hne)]
    exact backPropT1_entry_keep node req dy gArr (scopeStart st) hr1 hs1
  · obtain ⟨a, ha1, ha2, ha3⟩ :=
      backPropT2_entry_neg (node.backPropT1 req dy gArr (scopeStart st)).1 req dy
        (node.backPropT1 req dy gArr (scopeStart st)).2.1
        (node.backPropT1 req dy gArr (scopeStart st)).2.2
        (by rw [ht.2]; exact hr2) (by rw [ht.2]; exact hs2)
    rw [ht.2] at ha1
    exact ⟨a, ha1, ha2, ha3⟩

/-- C3: for a scalar-shaped input that requires a gradient, backProp writes
the sum of the elements of dy divided by the element count of dy, negated
for the right-hand operand. Stated for calls whose cached divisor, if
already present, holds the element count of dy, which the lazily creating
branches establish on first use. -/
theorem subtract_backProp_scalar_gradient_mean
    (node : Subtract) (req : Nat → Bool) (iArr gArr : TensorArrayMap)
    (st : ArrState) (dy : NDArray)
    (hdy : TensorArrayMap.get gArr node.outTensor = some dy)
    (hne : node.t1.id ≠ node.t2.id)
    (hsz : ∀ s, node.dySizeScalar = some s → scalarValue s = (dy.size : ℚ)) :
    ∃ node2 g2 st2, node.backProp req iArr gArr st = some (node2, g2, st2) ∧
      (isScalarShape node.t1.shape = true → req node.t1.id = true →
        ∃ a, g2 node.t1.id = some a ∧ a.data = [dy.data.sum / (dy.size : ℚ)]) ∧
      (isScalarShape node.t2.shape = true → req node.t2.id = true →
        ∃ a, g2 node.t2.id = some a ∧ a.data = [(-dy.data.sum) / (dy.size : ℚ)]) := by
  have ht := backPropT1_tensors node req dy gArr (scopeStart st)
  unfold Subtract.backProp
  rw [hdy]
  refine ⟨_, _, _, rfl, ?_, ?_⟩
  · intro hs1 hr1
    rw [backPropT2_map_other _ req dy _ _ node.t1.id (by rw [ht.2]; exact hne)]
    exact backPropT1_entry_scalar node req dy gArr (scopeStart st) hr1 hs1 hsz
  · intro hs2 hr2
    obtain ⟨a, ha1, ha2⟩ :=
      backPropT2_entry_scalar (node.backPropT1 req dy gArr (scopeStart st)).1 req dy
        (node.backPropT1 req dy gArr (scopeStart st)).2.1
        (node.backPropT1 req dy gArr (scopeStart st)).2.2
        (by rw [ht.2]; exact hr2) (by rw [ht.2]; exact hs2)
        (backPropT1_cache_value node req dy gArr (scopeStart st) hsz)
    rw [ht.2] at ha1
    exact ⟨a, ha1, ha2⟩

/-- C10: once the cached divisor scalar exists, every later backProp call
leaves it unchanged and divides by its stored value, whatever the element
count of the current dy. -/
theorem subtract_dySizeScalar_frozen
    (node : Subtract) (req : Nat → Bool) (iArr gArr : TensorArrayMap)
    (st : ArrState) (dy s : NDArray)
    (hdy : TensorArrayMap.get gArr node.outTensor = some dy)
    (hs : node.dySizeScalar = some s)
    (hne : node.t1.id ≠ node.t2.id) :
    ∃ node2 g2 st2, node.backProp req iArr gArr st = some (node2, g2, st2) ∧
      node2.dySizeScalar = some s ∧
      (isScalarShape node.t1.shape = true → req node.t1.id = true →
        ∃ a, g2 node.t1.id = some a ∧ a.data = [dy.data.sum / scalarValue s]) ∧
      (isScalarShape node.t2.shape = true → req node.t2.id = true →
        ∃ a, g2 node.t2.id = some a ∧ a.data = [(-dy.data.sum) / scalarValue s]) := by
  have ht := backPropT1_tensors node req dy gArr (scopeStart st)
  have hc1 := backPropT1_cache_some node req dy s gArr (scopeStart st) hs
  unfold Subtract.backProp
  rw [hdy]
  refine ⟨_, _, _, rfl, ?_, ?_, ?_⟩
  · exact backPropT2_cache_some _ req dy s _ _ hc1
  · intro hs1 hr1
    rw [backPropT2_map_other _ req dy _ _ node.t1.id (by rw [ht.2]; exact hne)]
    rw [backPropT1_scalar_cached node req dy s gArr (scopeStart st) hr1 hs1 hs]
    exact ⟨_, TensorArrayMap.get_set_same _ _ _, rfl⟩
  · intro hs2 hr2
    have h2 := backPropT2_scalar_cached
      (node.backPropT1 req dy gArr (scopeStart st)).1 req dy s
      (node.backPropT1 req dy gArr (scopeStart st)).2.1
      (node.backPropT1 req dy gArr (scopeStart st)).2.2
      (by rw [ht.2]; exact hr2) (by rw [ht.2]; exact hs2) hc1
    rw [h2, ht.2]
    exact ⟨_, TensorArrayMap.get_set_same _ _ _, rfl⟩

/-- C7: backProp writes no gradient entry for an input the Graph Driver
reports as not requiring one; the existing entry of that input is left
unchanged. -/
theorem subtract_backProp_skips_non_required
    (node : Subtract) (req : Nat → Bool) (iArr gArr : TensorArrayMap)
    (st : ArrState) (dy : NDArray)
    (hdy : TensorArrayMap.get gArr node.outTensor = some dy) :
    ∃ node2 g2 st2, node.backProp req iArr gArr st = some (node2, g2, st2) ∧
      (req node.t1.id = false → g2 node.t1.id = gArr node.t1.id) ∧
      (req node.t2.id = false → g2 node.t2.id = gArr node.t2.id) := by
  have ht := backPropT1_tensors node req dy gArr (scopeStart st)
  unfold Subtract.backProp
  rw [hdy]
  refine ⟨_, _, _, rfl, ?_, ?_⟩
  · intro h1
    by_cases h2 : req node.t2.id = true
    · have hne : node.t1.id ≠ node.t2.id := by
        intro he
        rw [he, h2] at h1
        exact absurd h1 (by simp)
      rw [backPropT2_map_other _ req dy _ _ node.t1.id (by rw [ht.2]; exact hne)]
      rw [backPropT1_map_skip node req dy gArr (scopeStart st) h1]
    · rw [backPropT2_map_skip _ req dy _ _ (by rw [ht.2]; simpa using h2)]
      rw [backPropT1_map_skip node req dy gArr (scopeStart st) h1]
  · intro h2
    rw [backPropT2_map_skip _ req dy _ _ (by rw [ht.2]; exact h2)]
    by_cases h1 : req node.t1.id = true
    · have hne : node.t2.id ≠ node.t1.id := by
        intro he
        rw [he, h1] at h2
        exact absurd h2 (by simp)
      rw [backPropT1_map_other node req dy gArr (scopeStart st) node.t2.id hne]
    · rw [backPropT1_map_skip node req dy gArr (scopeStart st) (by simpa using h1)]

/-- C8: a missing required value map entry — an operand in feedForward, or
the output gradient in backProp — fails the call with no write to either
map: the call returns none and the input maps are untouched. -/
theorem subtract_missing_value_fails_before_write (node : Subtract) (st : ArrState) :
    (∀ m : TensorArrayMap,
      TensorArrayMap.get m node.t1 = none ∨ TensorArrayMap.get m node.t2 = none →
        node.feedForward m st = none) ∧
    (∀ (req : Nat → Bool) (iArr gArr : TensorArrayMap),
      TensorArrayMap.get gArr node.outTensor = none →
        node.backProp req iArr gArr st = none) := by
  constructor
  · intro m h
    unfold Subtract.feedForward
    rcases hh1 : TensorArrayMap.get m node.t1 with _ | a
    · rfl
    · rcases hh2 : TensorArrayMap.get m node.t2 with _ | b
      · rfl
      · exfalso
        rw [hh1, hh2] at h
        rcases h with h | h <;> exact absurd h (by simp)
  · intro req iArr gArr h
    unfold Subtract.backProp
    rw [h]

def reqTrue : Nat → Bool := fun _ => true

def reqFalse : Nat → Bool := fun _ => false

def mEmpty : TensorArrayMap := fun _ => none

def dyW2 : NDArray := ⟨0, [3], [1, 1, 1]⟩

def nodeW2 : Subtract := ⟨⟨1, [3]⟩, ⟨2, [3]⟩, ⟨3, [3]⟩, none⟩

def gW2 : TensorArrayMap := fun i => if i = 3 then some dyW2 else none

def stW2 : ArrState := ⟨1, [0]⟩

/-- Witness for C2 at dy = [1, 1, 1]. -/
theorem subtract_backProp_same_shape_gradients_witness :
    TensorArrayMap.get gW2 nodeW2.outTensor = some dyW2 ∧
    isScalarShape nodeW2.t1.shape = false ∧
    isScalarShape nodeW2.t2.shape = false ∧
    reqTrue nodeW2.t1.id = true ∧ reqTrue nodeW2.t2.id = true ∧
    nodeW2.t1.id ≠ nodeW2.t2.id ∧
    (∃ node2 g2 st2, nodeW2.backProp reqTrue gW2 gW2 stW2 = some (node2, g2, st2) ∧
      g2 nodeW2.t1.id = some dyW2 ∧
      ∃ gneg, g2 nodeW2.t2.id = some gneg ∧ gneg.shape = dyW2.shape ∧
        gneg.data = dyW2.data.map (fun x => -x)) :=
  ⟨rfl, rfl, rfl, rfl, rfl, by decide,
    subtract_backProp_same_shape_gradients nodeW2 reqTrue gW2 gW2 stW2 dyW2
      rfl rfl rfl rfl rfl (by decide)⟩

def dyW3 : NDArray := ⟨0, [4], [2, 2, 2, 2]⟩

def nodeW3 : Subtract := ⟨⟨1, []⟩, ⟨2, [4]⟩, ⟨3, [4]⟩, none⟩

def gW3 : TensorArrayMap := fun i => if i = 3 then some dyW3 else none

def stW3 : ArrState := ⟨1, [0]⟩

/-- Witness for C3 at a scalar left input and dy = [2, 2, 2, 2]. -/
theorem subtract_backProp_scalar_gradient_mean_witness :
    TensorArrayMap.get gW3 nodeW3.outTensor = some dyW3 ∧
    nodeW3.t1.id ≠ nodeW3.t2.id ∧
    (∃ node2 g2 st2, nodeW3.backProp reqTrue gW3 gW3 stW3 = some (node2, g2, st2) ∧
      (isScalarShape nodeW3.t1.shape = true → reqTrue nodeW3.t1.id = true →
        ∃ a, g2 nodeW3.t1.id = some a ∧ a.data = [dyW3.data.sum / (dyW3.size : ℚ)]) ∧
      (isScalarShape nodeW3.t2.shape = true → reqTrue nodeW3.t2.id = true →
        ∃ a, g2 nodeW3.t2.id = some a ∧ a.data = [(-dyW3.data.sum) / (dyW3.size : ℚ)])) :=
  ⟨rfl, by decide,
    subtract_backProp_scalar_gradient_mean nodeW3 reqTrue gW3 gW3 stW3 dyW3 rfl
      (by decide) (fun _ h => Option.noConfusion h)⟩

def sW10 : NDArray := ⟨5, [], [2]⟩

def nodeW10 : Subtract := ⟨⟨1, []⟩, ⟨2, [4]⟩, ⟨3, [4]⟩, some sW10⟩

def gW10 : TensorArrayMap := fun i => if i = 3 then some dyW3 else none

/-- Witness for C10: the cached divisor holds 2 while dy has 4 elements,
and the division still uses the stored 2. -/
theorem subtract_dySizeScalar_frozen_witness :
    TensorArrayMap.get gW10 nodeW10.outTensor = some dyW3 ∧
    nodeW10.dySizeScalar = some sW10 ∧
    nodeW10.t1.id ≠ nodeW10.t2.id ∧
    (∃ node2 g2 st2, nodeW10.backProp reqTrue gW10 gW10 stW3 = some (node2, g2, st2) ∧
      node2.dySizeScalar = some sW10 ∧
      (isScalarShape nodeW10.t1.shape = true → reqTrue nodeW10.t1.id = true →
        ∃ a, g2 nodeW10.t1.id = some a ∧ a.data = [dyW3.data.sum / scalarValue sW10]) ∧
      (isScalarShape nodeW10.t2.shape = true → reqTrue nodeW10.t2.id = true →
        ∃ a, g2 nodeW10.t2.id = some a ∧
          a.data = [(-dyW3.data.sum) / scalarValue sW10])) :=
  ⟨rfl, rfl, by decide,
    subtract_dySizeScalar_frozen nodeW10 reqTrue gW10 gW10 stW3 dyW3 sW10
      rfl rfl (by decide)⟩

/-- Witness for C7: with no input requiring a gradient, both entries are
unchanged. -/
theorem subtract_backProp_skips_non_required_witness :
    TensorArrayMap.get gW2 nodeW2.outTensor = some dyW2 ∧
    (∃ node2 g2 st2, nodeW2.backProp reqFalse gW2 gW2 stW2 = some (node2, g2, st2) ∧
      (reqFalse nodeW2.t1.id = false → g2 nodeW2.t1.id = gW2 nodeW2.t1.id) ∧
      (reqFalse nodeW2.t2.id = false → g2 nodeW2.t2.id = gW2 nodeW2.t2.id)) :=
  ⟨rfl, subtract_backProp_skips_non_required nodeW2 reqFalse gW2 gW2 stW2 dyW2 rfl⟩

/-- Witness for C8: with an empty value map, both calls fail. -/
theorem subtract_missing_value_fails_before_write_witness :
    (TensorArrayMap.get mEmpty nodeW2.t1 = none ∨
      TensorArrayMap.get mEmpty nodeW2.t2 = none) ∧
    nodeW2.feedForward mEmpty stW2 = none ∧
    TensorArrayMap.get mEmpty nodeW2.outTensor = none ∧
    nodeW2.backProp reqTrue mEmpty mEmpty stW2 = none :=
  ⟨Or.inl rfl,
   (subtract_missing_value_fails_before_write nodeW2 stW2).1 mEmpty (Or.inl rfl),
   rfl,
   (subtract_missing_value_fails_before_write nodeW2 stW2).2 reqTrue mEmpty mEmpty rfl⟩

def nodeC6 : Subtract := ⟨⟨1, []⟩, ⟨2, [4]⟩, ⟨3, [4]⟩, some ⟨5, [], [4]⟩⟩

def stC6 : ArrState := ⟨6, [5]⟩

def disposeStep (r : Subtract × ArrState) : Option (Subtract × ArrState) :=
  Subtract.dispose r.1 r.2

/-- C6 counterexample: on a node whose cached divisor scalar exists, the
first dispose succeeds and returns the node with the sentinel still set,
and the second dispose call attempts to release the already released
scalar and faults — it is not a no-op. -/
theorem subtract_dispose_double_release_fails :
    Subtract.dispose nodeC6 stC6 = some (nodeC6, ⟨6, []⟩) ∧
    Option.bind (Subtract.dispose nodeC6 stC6) disposeStep = none := by
  constructor
  · decide
  · decide

/-- C6 amended: dispose is a no-op when the cached scalar was never
created; when it was created, the first dispose releases it exactly once
but leaves the sentinel field set, so a second dispose call re-attempts
the release of the dead buffer and fails instead of being a no-op. -/
theorem subtract_dispose_sentinel_not_cleared (node : Subtract) (st : ArrState) :
    (node.dySizeScalar = none → node.dispose st = some (node, st)) ∧
    (∀ s : NDArray, node.dySizeScalar = some s → s.id ∈ st.live →
      ∃ st2, node.dispose st = some (node, st2) ∧ s.id ∉ st2.live ∧
        node.dispose st2 = none) := by
  constructor
  · intro hc
    unfold Subtract.dispose
    rw [hc]
  · intro s hc hlive
    refine ⟨⟨st.nextId, st.live.filter (fun j => j != s.id)⟩, ?_, ?_, ?_⟩
    · simp [Subtract.dispose, hc, disposeArr, hlive]
    · simp [List.mem_filter]
    · simp [Subtract.dispose, hc, disposeArr, List.mem_filter]

/-- Witness for the amended C6 at a concrete node and live set. -/
theorem subtract_dispose_sentinel_not_cleared_witness :
    nodeC6.dySizeScalar = some ⟨5, [], [4]⟩ ∧ (5 : Nat) ∈ stC6.live ∧
    (∃ st2, nodeC6.dispose stC6 = some (nodeC6, st2) ∧
      NDArray.id ⟨5, [], [4]⟩ ∉ st2.live ∧ nodeC6.dispose st2 = none) :=
  ⟨rfl, by decide,
    (subtract_dispose_sentinel_not_cleared nodeC6 stC6).2 ⟨5, [], [4]⟩ rfl (by decide)⟩

theorem backPropT1_survives (node : Subtract) (req : Nat → Bool) (dy : NDArray)
    (g : TensorArrayMap) (ms : MathScope) (i : Nat)
    (hk : ∀ j ∈ ms.kept, j < ms.nextId)
    (h : survives (node.backPropT1 req dy g ms).2.2 i) :
    survives ms i ∨
      (∃ a, (node.backPropT1 req dy g ms).2.1 node.t1.id = some a ∧ a.id = i) ∨
      (node.dySizeScalar = none ∧
        ∃ s, (node.backPropT1 req dy g ms).1.dySizeScalar = some s ∧ s.id = i) := by
  by_cases hr : req node.t1.id = true
  · by_cases hsc : isScalarShape node.t1.shape = true
    · cases hc : node.dySizeScalar with
      | none =>
          rw [backPropT1_scalar_new node req dy g ms hr hsc hc] at h ⊢
          obtain ⟨hlive, hcond⟩ := h
          dsimp only at hlive hcond
          simp only [List.mem_cons] at hlive
          rcases hlive with rfl | rfl | rfl | hL
          · exact Or.inr (Or.inl ⟨_, TensorArrayMap.get_set_same _ _ _, rfl⟩)
          · exact Or.inr (Or.inr ⟨rfl, _, rfl, rfl⟩)
          · exfalso
            rcases hcond with hnt | hkp
            · exact hnt (by simp)
            · simp only [List.mem_cons] at hkp
              rcases hkp with he | hkp
              · omega
              · exact absurd (hk _ hkp) (by omega)
          · rcases hcond with hnt | hkp
            · refine Or.inl ⟨hL, Or.inl ?_⟩
              intro hmem
              exact hnt (by simp [hmem])
            · simp only [List.mem_cons] at hkp
              rcases hkp with rfl | hkp
              · exact Or.inr (Or.inl ⟨_, TensorArrayMap.get_set_same _ _ _, rfl⟩)
              · exact Or.inl ⟨hL, Or.inr hkp⟩
      | some c0 =>
          rw [backPropT1_scalar_cached node req dy c0 g ms hr hsc hc] at h ⊢
          obtain ⟨hlive, hcond⟩ := h
          dsimp only at hlive hcond
          simp only [List.mem_cons] at hlive
          rcases hlive with rfl | rfl | hL
          · exact Or.inr (Or.inl ⟨_, TensorArrayMap.get_set_same _ _ _, rfl⟩)
          · exfalso
            rcases hcond with hnt | hkp
            · exact hnt (by simp)
            · simp only [List.mem_cons] at hkp
              rcases hkp with he | hkp
              · omega
              · exact absurd (hk _ hkp) (by omega)
          · rcases hcond with hnt | hkp
            · refine Or.inl ⟨hL, Or.inl ?_⟩
              intro hmem
              exact hnt (by simp [hmem])
            · simp only [List.mem_cons] at hkp
              rcases hkp with rfl | hkp
              · exact Or.inr (Or.inl ⟨_, TensorArrayMap.get_set_same _ _ _, rfl⟩)
              · exact Or.inl ⟨hL, Or.inr hkp⟩
    · rw [backPropT1_keep node req dy g ms hr (by simpa using hsc)] at h ⊢
      obtain ⟨hlive, hcond⟩ := h
      dsimp only [keepArr] at hlive hcond
      rcases hcond with hnt | hkp
      · exact Or.inl ⟨hlive, Or.inl hnt⟩
      · simp only [List.mem_cons] at hkp
        rcases hkp with rfl | hkp
        · exact Or.inr (Or.inl ⟨dy, TensorArrayMap.get_set_same _ _ _, rfl⟩)
        · exact Or.inl ⟨hlive, Or.inr hkp⟩
  · rw [backPropT1_skip node req dy g ms (by simpa using hr)] at h ⊢
    exact Or.inl h

theorem backPropT2_survives (node : Subtract) (req : Nat → Bool) (dy : NDArray)
    (g : TensorArrayMap) (ms : MathScope) (i : Nat)
    (hk : ∀ j ∈ ms.kept, j < ms.nextId)
    (h : survives (node.backPropT2 req dy g ms).2.2 i) :
    survives ms i ∨
      (∃ a, (node.backPropT2 req dy g ms).2.1 node.t2.id = some a ∧ a.id = i) ∨
      (node.dySizeScalar = none ∧
        ∃ s, (node.backPropT2 req dy g ms).1.dySizeScalar = some s ∧ s.id = i) := by
  by_cases hr : req node.t2.id = true
  · by_cases hsc : isScalarShape node.t2.shape = true
    · cases hc : node.dySizeScalar with
      | none =>
          rw [backPropT2_scalar_new node req dy g ms hr hsc hc] at h ⊢
          obtain ⟨hlive, hcond⟩ := h
          dsimp only at hlive hcond
          simp only [List.mem_cons] at hlive
          rcases hlive with rfl | rfl | rfl | rfl | hL
          · exact Or.inr (Or.inl ⟨_, TensorArrayMap.get_set_same _ _ _, rfl⟩)
          · exact Or.inr (Or.inr ⟨rfl, _, rfl, rfl⟩)
          · exfalso
            rcases hcond with hnt | hkp
            · exact hnt (by simp)
            · simp only [List.mem_cons] at hkp
              rcases hkp with he | hkp
              · omega
              · exact absurd (hk _ hkp) (by omega)
          · exfalso
            rcases hcond with hnt | hkp
            · exact hnt (by simp)
            · simp only [List.mem_cons] at hkp
              rcases hkp with he | hkp
              · omega
              · exact absurd (hk _ hkp) (by omega)
          · rcases hcond with hnt | hkp
            · refine Or.inl ⟨hL, Or.inl ?_⟩
              intro hmem
              exact hnt (by simp [hmem])
            · simp only [List.mem_cons] at hkp
              rcases hkp with rfl | hkp
              · exact Or.inr (Or.inl ⟨_, TensorArrayMap.get_set_same _ _ _, rfl⟩)
              · exact Or.inl ⟨hL, Or.inr hkp⟩
      | some c0 =>
          rw [backPropT2_scalar_cached node req dy c0 g ms hr hsc hc] at h ⊢
          obtain ⟨hlive, hcond⟩ := h
          dsimp only at hlive hcond
          simp only [List.mem_cons] at hlive
          rcases hlive with rfl | rfl | rfl | hL
          · exact Or.inr (Or.inl ⟨_, TensorArrayMap.get_set_same _ _ _, rfl⟩)
          · exfalso
            rcases hcond with hnt | hkp
            · exact hnt (by simp)
            · simp only [List.mem_cons] at hkp
              rcases hkp with he | hkp
              · omega
              · exact absurd (hk _ hkp) (by omega)
          · exfalso
            rcases hcond with hnt | hkp
            · exact hnt (by simp)
            · simp only [List.mem_cons] at hkp
              rcases hkp with he | hkp
              · omega
              · exact absurd (hk _ hkp) (by omega)
          · rcases hcond with hnt | hkp
            · refine Or.inl ⟨hL, Or.inl ?_⟩
              intro hmem
              exact hnt (by simp [hmem])
            · simp only [List.mem_cons] at hkp
              rcases hkp with rfl | hkp
              · exact Or.inr (Or.inl ⟨_, TensorArrayMap.get_set_same _ _ _, rfl⟩)
              · exact Or.inl ⟨hL, Or.inr hkp⟩
    · rw [backPropT2_neg node req dy g ms hr (by simpa using hsc)] at h ⊢
      obtain ⟨hlive, hcond⟩ := h
      dsimp only at hlive hcond
      simp only [List.mem_cons] at hlive
      rcases hlive with rfl | hL
      · exact Or.inr (Or.inl ⟨_, TensorArrayMap.get_set_same _ _ _, rfl⟩)
      · rcases hcond with hnt | hkp
        · refine Or.inl ⟨hL, Or.inl ?_⟩
          intro hmem
          exact hnt (by simp [hmem])
        · simp only [List.mem_cons] at hkp
          rcases hkp with rfl | hkp
          · exact Or.inr (Or.inl ⟨_, TensorArrayMap.get_set_same _ _ _, rfl⟩)
          · exact Or.inl ⟨hL, Or.inr hkp⟩
  · rw [backPropT2_skip node req dy g ms (by simpa using hr)] at h ⊢
    exact Or.inl h

theorem backPropT1_kept_lt (node : Subtract) (req : Nat → Bool) (dy : NDArray)
    (g : TensorArrayMap) (ms : MathScope)
    (hk : ∀ j ∈ ms.kept, j < ms.nextId) (hdy : dy.id < ms.nextId) :
    ∀ j ∈ (node.backPropT1 req dy g ms).2.2.kept,
      j < (node.backPropT1 req dy g ms).2.2.nextId := by
  by_cases hr : req node.t1.id = true
  · by_cases hsc : isScalarShape node.t1.shape = true
    · cases hc : node.dySizeScalar with
      | none =>
          rw [backPropT1_scalar_new node req dy g ms hr hsc hc]
          intro j hj
          dsimp only at hj ⊢
          simp only [List.mem_cons] at hj
          rcases hj with rfl | hj
          · omega
          · exact lt_trans (hk _ hj) (by omega)
      | some c0 =>
          rw [backPropT1_scalar_cached node req dy c0 g ms hr hsc hc]
          intro j hj
          dsimp only at hj ⊢
          simp only [List.mem_cons] at hj
          rcases hj with rfl | hj
          · omega
          · exact lt_trans (hk _ hj) (by omega)
    · rw [backPropT1_keep node req dy g ms hr (by simpa using hsc)]
      intro j hj
      dsimp only [keepArr] at hj ⊢
      simp only [List.mem_cons] at hj
      rcases hj with rfl | hj
      · exact hdy
      · exact hk _ hj
  · rw [backPropT1_skip node req dy g ms (by simpa using hr)]
    exact hk

theorem backPropT1_nextId_le (node : Subtract) (req : Nat → Bool) (dy : NDArray)
    (g : TensorArrayMap) (ms : MathScope) :
    ms.nextId ≤ (node.backPropT1 req dy g ms).2.2.nextId := by
  by_cases hr : req node.t1.id = true
  · by_cases hsc : isScalarShape node.t1.shape = true
    · cases hc : node.dySizeScalar with
      | none =>
          rw [backPropT1_scalar_new node req dy g ms hr hsc hc]
          dsimp only
          omega
      | some c0 =>
          rw [backPropT1_scalar_cached node req dy c0 g ms hr hsc hc]
          dsimp only
          omega
    · rw [backPropT1_keep node req dy g ms hr (by simpa using hsc)]
      exact Nat.le_refl _
  · rw [backPropT1_skip node req dy g ms (by simpa using hr)]

theorem ffOut_id (a b : NDArray) (n : Nat) : (ffOut a b n).id = n := by
  unfold ffOut
  split
  · rfl
  · split
    · rfl
    · rfl

/-- Projection of a backProp result used to observe the leak: the live ids,
the id of the gradient written for handle 1, and the id of the cached
divisor scalar. -/
def backPropView (r : Subtract × TensorArrayMap × ArrState) :
    List Nat × Option Nat × Option Nat :=
  (r.2.2.live, Option.map NDArray.id (r.2.1 1), Option.map NDArray.id r.1.dySizeScalar)

def nodeC9 : Subtract := ⟨⟨1, []⟩, ⟨2, [4]⟩, ⟨3, [4]⟩, none⟩

def reqC9 : Nat → Bool := fun i => i == 1

def gC9 : TensorArrayMap :=
  fun i => if i = 3 then some ⟨0, [4], [2, 2, 2, 2]⟩ else none

def stC9 : ArrState := ⟨10, [0]⟩

/-- C9 counterexample: on the first scalar-input backward call, buffer 11 —
the lazily created cached divisor scalar — is allocated during the call
(the live set before the call is [0]) and survives it, while the array
written into the gradient map has id 12: an array allocated during the
call survives outside its scope without being written into a value map. -/
theorem subtract_backProp_cached_scalar_survives :
    Option.map backPropView (nodeC9.backProp reqC9 gC9 gC9 stC9) =
      some ([12, 11, 0], some 12, some 11) ∧ stC9.live = [0] := by
  constructor
  · decide
  · rfl

/-- C9 amended: after a feedForward call the surviving arrays are exactly
the prior live set plus the result written under the output handle; after
a backProp call every surviving array either was live before, or is a
gradient written into the map, or is the cached divisor scalar created by
this call — the sum and negated-sum temporaries are always released. -/
theorem subtract_scope_no_leak_amended :
    (∀ (node : Subtract) (m : TensorArrayMap) (st : ArrState) (a b : NDArray),
      TensorArrayMap.get m node.t1 = some a → TensorArrayMap.get m node.t2 = some b →
      ∃ m2 st2, node.feedForward m st = some (m2, st2) ∧
        (∃ r, m2 node.outTensor.id = some r ∧ r.id ∈ st2.live) ∧
        ∀ i ∈ st2.live, i ∈ st.live ∨
          ∃ r, m2 node.outTensor.id = some r ∧ r.id = i) ∧
    (∀ (node : Subtract) (req : Nat → Bool) (iArr gArr : TensorArrayMap)
      (st : ArrState) (dy : NDArray),
      TensorArrayMap.get gArr node.outTensor = some dy →
      dy.id < st.nextId → node.t1.id ≠ node.t2.id →
      ∃ node2 g2 st2, node.backProp req iArr gArr st = some (node2, g2, st2) ∧
        ∀ i ∈ st2.live, i ∈ st.live ∨
          (∃ a, (g2 node.t1.id = some a ∨ g2 node.t2.id = some a) ∧ a.id = i) ∨
          (node.dySizeScalar = none ∧
            ∃ s, node2.dySizeScalar = some s ∧ s.id = i)) := by
  constructor
  · intro node m st a b h1 h2
    rw [feedForward_some node m st a b h1 h2]
    refine ⟨_, _, rfl, ⟨_, TensorArrayMap.get_set_same _ _ _, ?_⟩, ?_⟩
    · rw [ffOut_id]
      exact List.mem_cons_self _ _
    · intro i hi
      dsimp only at hi
      simp only [List.mem_cons] at hi
      rcases hi with rfl | hi
      · exact Or.inr ⟨_, TensorArrayMap.get_set_same _ _ _, ffOut_id a b st.nextId⟩
      · exact Or.inl hi
  · intro node req iArr gArr st dy hdy hdyid hne
    have ht := backPropT1_tensors node req dy gArr (scopeStart st)
    have hk0 : ∀ j ∈ (scopeStart st).kept, j < (scopeStart st).nextId := by
      intro j hj
      simp [scopeStart] at hj
    have hdy0 : dy.id < (scopeStart st).nextId := hdyid
    have hk1 := backPropT1_kept_lt node req dy gArr (scopeStart st) hk0 hdy0
    unfold Subtract.backProp
    rw [hdy]
    refine ⟨_, _, _, rfl, ?_⟩
    intro i hi
    rw [mem_scopeEnd_live] at hi
    rcases backPropT2_survives _ req dy _ _ i hk1 hi with hsurv | hwrit | hcach
    · rcases backPropT1_survives node req dy gArr (scopeStart st) i hk0 hsurv with
        hs0 | hwrit1 | hcach1
      · exact Or.inl ((survives_scopeStart st i).mp hs0)
      · obtain ⟨a, ha, hai⟩ := hwrit1
        refine Or.inr (Or.inl ⟨a, Or.inl ?_, hai⟩)
        rw [backPropT2_map_other _ req dy _ _ node.t1.id (by rw [ht.2]; exact hne)]
        exact ha
      · obtain ⟨hnone, s, hs, hsi⟩ := hcach1
        exact Or.inr (Or.inr ⟨hnone, s, backPropT2_cache_some _ req dy s _ _ hs, hsi⟩)
    · obtain ⟨a, ha, hai⟩ := hwrit
      rw [ht.2] at ha
      exact Or.inr (Or.inl ⟨a, Or.inr ha, hai⟩)
    · obtain ⟨hnone1, s, hs, hsi⟩ := hcach
      exact Or.inr (Or.inr
        ⟨backPropT1_cache_none_inv node req dy gArr (scopeStart st) hnone1, s, hs, hsi⟩)

/-- Witness for the amended C9 at concrete forward and backward calls. -/
theorem subtract_scope_no_leak_amended_witness :
    TensorArrayMap.get mW1 nodeW1.t1 = some aW1 ∧
    TensorArrayMap.get gC9 nodeC9.outTensor = some ⟨0, [4], [2, 2, 2, 2]⟩ ∧
    NDArray.id ⟨0, [4], [2, 2, 2, 2]⟩ < stC9.nextId ∧
    nodeC9.t1.id ≠ nodeC9.t2.id ∧
    (∃ m2 st2, nodeW1.feedForward mW1 stW1 = some (m2, st2) ∧
      (∃ r, m2 nodeW1.outTensor.id = some r ∧ r.id ∈ st2.live) ∧
      ∀ i ∈ st2.live, i ∈ stW1.live ∨
        ∃ r, m2 nodeW1.outTensor.id = some r ∧ r.id = i) ∧
    (∃ node2 g2 st2, nodeC9.backProp reqC9 gC9 gC9 stC9 = some (node2, g2, st2) ∧
      ∀ i ∈ st2.live, i ∈ stC9.live ∨
        (∃ a, (g2 nodeC9.t1.id = some a ∨ g2 nodeC9.t2.id = some a) ∧ a.id = i) ∨
        (nodeC9.dySizeScalar = none ∧
          ∃ s, node2.dySizeScalar = some s ∧ s.id = i)) :=
  ⟨rfl, rfl, by decide, by decide,
    subtract_scope_no_leak_amended.1 nodeW1 mW1 stW1 aW1 bW1 rfl rfl,
    subtract_scope_no_leak_amended.2 nodeC9 reqC9 gC9 gC9 stC9 ⟨0, [4], [2, 2, 2, 2]⟩
      rfl (by decide) (by decide)⟩
